import Mathlib

/-!
Shallow embedding of the single-room realtime chat client
(src/src/App.tsx and the typing/notification-persistence component),
with theorems settling the behavioural claims about it.
-/

/-- One row of the messages table (interface Message in App.tsx);
created_at is modelled as an abstract timestamp. -/
structure Message where
  id : String
  user_id : String
  content : String
  created_at : Nat
  user_avatar : Option String
  user_name : Option String
deriving DecidableEq

/-- session.user.user_metadata (user_name, avatar_url from the OAuth provider). -/
structure UserMetadata where
  user_name : Option String
  avatar_url : Option String
deriving DecidableEq

/-- session.user: the authenticated user. -/
structure ChatUser where
  id : String
  email : Option String
  user_metadata : UserMetadata
deriving DecidableEq

/-- The auth session mirrored as local UI state. -/
structure Session where
  user : ChatUser
deriving DecidableEq

/-- The React state of the App component (useState hooks). -/
structure AppState where
  session : Option Session
  messages : List Message
  newMessage : String
  isNotificationEnabled : Bool
  isLoading : Bool
  hasMore : Bool
deriving DecidableEq

def MESSAGES_PER_PAGE : Nat := 50

/-- The row sent by supabase.from("messages").insert([...]). -/
structure InsertRequest where
  content : String
  user_id : String
  user_name : Option String
  user_avatar : Option String
deriving DecidableEq

/-- JavaScript String.prototype.trim, modelled on the character list:
strip leading and trailing whitespace. -/
def jsTrim (s : String) : String :=
  String.mk (((s.data.dropWhile Char.isWhitespace).reverse.dropWhile
    Char.isWhitespace).reverse)

/-- JavaScript a || b on string-or-undefined values: b is taken when a is
undefined or the empty string (both falsy). -/
def jsOrStr (a b : Option String) : Option String :=
  match a with
  | some s => if s = "" then b else some s
  | none => b

/-- The insert row built at App.tsx lines 112-119: content is the raw draft,
user_id the session user id, user_name is user_metadata.user_name || email. -/
def mkInsertRequest (draft : String) (s : Session) : InsertRequest :=
  { content := draft
    user_id := s.user.id
    user_name := jsOrStr s.user.user_metadata.user_name s.user.email
    user_avatar := s.user.user_metadata.avatar_url }

/-- Observable outcome of one event handler: the new React state, the insert
requests issued, toast messages shown, console log lines emitted, the number
of backend requests issued, and the value assigned to scrollTop (if any). -/
structure HandlerOut where
  state : AppState
  inserts : List InsertRequest
  toasts : List String
  logs : List String
  calls : Nat
  scrollAssign : Option Int
deriving DecidableEq

/-- A handler outcome with no effect other than the state. -/
def silentOut (st : AppState) : HandlerOut :=
  { state := st, inserts := [], toasts := [], logs := [], calls := 0,
    scrollAssign := none }

/-- handleSendMessage (App.tsx lines 108-131): guard on trimmed draft and
session; on success the draft is cleared, on error only a toast is shown.
The parameter ok is the insert outcome reported by the backend. -/
def handleSendMessage (st : AppState) (ok : Bool) : HandlerOut :=
  match st.session with
  | none => silentOut st
  | some s =>
    if jsTrim st.newMessage = "" then silentOut st
    else
      let req := mkInsertRequest st.newMessage s
      if ok then
        { state := { st with newMessage := "" }, inserts := [req],
          toasts := [], logs := [], calls := 1, scrollAssign := none }
      else
        { state := st, inserts := [req],
          toasts := ["Failed to send message"], logs := [], calls := 1,
          scrollAssign := none }

/-- handleLogin (App.tsx lines 96-101): one OAuth request; on error a toast. -/
def handleLogin (st : AppState) (ok : Bool) : HandlerOut :=
  if ok then
    { state := st, inserts := [], toasts := [], logs := [], calls := 1,
      scrollAssign := none }
  else
    { state := st, inserts := [], toasts := ["Failed to login"], logs := [],
      calls := 1, scrollAssign := none }

/-- handleLogout (App.tsx lines 103-106): one signOut request; on error a
toast. The session itself is cleared by the onAuthStateChange listener
(lines 44-48), modelled as the separate authChange event. -/
def handleLogout (st : AppState) (ok : Bool) : HandlerOut :=
  if ok then
    { state := st, inserts := [], toasts := [], logs := [], calls := 1,
      scrollAssign := none }
  else
    { state := st, inserts := [], toasts := ["Failed to logout"], logs := [],
      calls := 1, scrollAssign := none }

/-- The initial fetch (App.tsx lines 55-71): newest 50 rows in descending
created_at order, reversed and stored; on error only a toast. -/
def fetchMessagesInitial (st : AppState) (resp : Option (List Message)) :
    HandlerOut :=
  match resp with
  | none =>
    { state := st, inserts := [], toasts := ["Failed to fetch messages"],
      logs := [], calls := 1, scrollAssign := none }
  | some data =>
    { state := { st with messages := data.reverse }, inserts := [],
      toasts := [], logs := [], calls := 1, scrollAssign := none }

/-- The scrollable messages div, as read before the fetch resolves. -/
structure ScrollBox where
  scrollHeight : Int
  scrollTop : Int
deriving DecidableEq

/-- fetchMessages(offset) (App.tsx lines 133-171): a page in descending
created_at order; distance from bottom is captured before the response is
handled; a short page clears hasMore; offset 0 replaces the list, a non-zero
offset prepends the reversed page and schedules scrollTop to be restored to
the new scrollHeight minus the captured distance. newScrollHeight is the
height of the div after the DOM update. -/
def fetchMessagesPaged (st : AppState) (offset : Nat)
    (resp : Option (List Message)) (div : Option ScrollBox)
    (newScrollHeight : Int) : HandlerOut :=
  let st1 := { st with isLoading := true }
  let distanceFromBottom : Int :=
    match div with
    | some d => d.scrollHeight - d.scrollTop
    | none => 0
  match resp with
  | none =>
    { state := { st1 with isLoading := false }, inserts := [],
      toasts := ["Failed to fetch messages"], logs := [], calls := 1,
      scrollAssign := none }
  | some data =>
    let st2 :=
      if data.length < MESSAGES_PER_PAGE then { st1 with hasMore := false }
      else st1
    if offset = 0 then
      { state := { st2 with messages := data.reverse, isLoading := false },
        inserts := [], toasts := [], logs := [], calls := 1,
        scrollAssign := none }
    else
      let st3 := { st2 with messages := data.reverse ++ st2.messages, isLoading := false }
      { state := st3,
        inserts := [], toasts := [], logs := [], calls := 1,
        scrollAssign :=
          match div with
          | some _ => some (newScrollHeight - distanceFromBottom)
          | none => none }

/-- The realtime INSERT handler (App.tsx lines 77-88): the payload row is
appended; when the sound preference is on, the content is logged and the
sound is played (second component: log lines; third: whether sound plays). -/
def onRealtimeInsert (st : AppState) (m : Message) :
    AppState × List String × Bool :=
  ({ st with messages := st.messages ++ [m] },
   if st.isNotificationEnabled then [m.content] else [],
   st.isNotificationEnabled)

/-- Every event that mutates the App state during one mounted session. -/
inductive AppEvent where
  | send (ok : Bool)
  | fetchInit (resp : Option (List Message))
  | fetchPage (offset : Nat) (resp : Option (List Message))
      (div : Option ScrollBox) (newScrollHeight : Int)
  | realtime (m : Message)
  | login (ok : Bool)
  | logout (ok : Bool)
  | authChange (s : Option Session)
  | toggleSound
  | setDraft (text : String)
deriving DecidableEq

/-- One step of the App state machine: each event applies its handler. -/
def stepApp (st : AppState) : AppEvent → AppState
  | AppEvent.send ok => (handleSendMessage st ok).state
  | AppEvent.fetchInit resp => (fetchMessagesInitial st resp).state
  | AppEvent.fetchPage off resp div h => (fetchMessagesPaged st off resp div h).state
  | AppEvent.realtime m => (onRealtimeInsert st m).1
  | AppEvent.login ok => (handleLogin st ok).state
  | AppEvent.logout ok => (handleLogout st ok).state
  | AppEvent.authChange s => { st with session := s }
  | AppEvent.toggleSound =>
      { st with isNotificationEnabled := !st.isNotificationEnabled }
  | AppEvent.setDraft t => { st with newMessage := t }

/-- Run a sequence of events from a state. -/
def runApp (st : AppState) (evts : List AppEvent) : AppState :=
  evts.foldl stepApp st

/-- disabled={!session} on the text input (App.tsx line 355). -/
def inputDisabled (st : AppState) : Bool := st.session.isNone

/-- disabled={!session} on the submit button (App.tsx line 360). -/
def submitDisabled (st : AppState) : Bool := st.session.isNone

/-- The Load past messages control renders iff hasMore (App.tsx line 217). -/
def loadMoreRendered (st : AppState) : Bool := st.hasMore

/-- Displayed order invariant: created_at non-decreasing front to back. -/
def sortedAsc (l : List Message) : Prop :=
  List.Chain' (fun a b => a.created_at ≤ b.created_at) l

/-- Server page order: created_at non-increasing (order cre desc). -/
def sortedDesc (l : List Message) : Prop :=
  List.Chain' (fun a b => b.created_at ≤ a.created_at) l

instance instDecidableSortedAsc (l : List Message) : Decidable (sortedAsc l) :=
  inferInstanceAs
    (Decidable (List.Chain'
      (fun (a b : Message) => a.created_at ≤ b.created_at) l))

instance instDecidableSortedDesc (l : List Message) : Decidable (sortedDesc l) :=
  inferInstanceAs
    (Decidable (List.Chain'
      (fun (a b : Message) => b.created_at ≤ a.created_at) l))

/-!
Typing indicators and the persisted notification preference live in the
typing-enabled revision of the App component (the unnamed source file):
TYPING_TIMEOUT, the typing broadcast handler, the 1000 ms sweep interval,
and setNotificationEnabled writing to window.localStorage.
-/

def TYPING_TIMEOUT : Nat := 3000

/-- The sweep interval passed to setInterval, in milliseconds. -/
def SWEEP_INTERVAL : Nat := 1000

/-- One entry of the typingUsers record (interface TypingUser). -/
structure TypingUser where
  user_name : String
  timestamp : Nat
deriving DecidableEq

/-- The typingUsers record, as an association list keyed by user_id. -/
abbrev TypingMap := List (String × TypingUser)

/-- Lookup of typingUsers[uid]. -/
def lookupTyping (uid : String) (m : TypingMap) : Option TypingUser :=
  (m.find? (fun e => e.1 == uid)).map (fun e => e.2)

/-- The broadcast handler: typingUsers[user_id] = \x7b user_name,
timestamp: Date.now() \x7d — an object-spread overwrite of one key. -/
def recordTyping (uid name : String) (now : Nat) (m : TypingMap) : TypingMap :=
  (uid, { user_name := name, timestamp := now }) ::
    m.filter (fun e => e.1 != uid)

/-- The periodic sweep: delete every entry with now - timestamp >
TYPING_TIMEOUT. -/
def sweepTyping (now : Nat) (m : TypingMap) : TypingMap :=
  m.filter (fun e => !(now - e.2.timestamp > TYPING_TIMEOUT : Bool))

/-- The two events that mutate typingUsers; each is delivered at an
event-loop time (the time at which its callback runs). -/
inductive TypingEvent where
  | broadcast (uid name : String)
  | sweep
deriving DecidableEq

/-- Apply one timed typing event. -/
def stepTyping (m : TypingMap) : Nat × TypingEvent → TypingMap
  | (t, TypingEvent.broadcast uid name) => recordTyping uid name t m
  | (t, TypingEvent.sweep) => sweepTyping t m

/-- Process a time-ordered list of typing events. -/
def runTyping (m : TypingMap) (evts : List (Nat × TypingEvent)) : TypingMap :=
  evts.foldl stepTyping m

/-- The typing names rendered under the message list: every recorded name
except the session user, shown only while the record is non-empty. -/
def typingNamesShown (m : TypingMap) (selfName : Option String) : List String :=
  (m.map (fun e => e.2.user_name)).filter (fun n => !(selfName == some n))

/-- Browser localStorage as a key/value association list. -/
abbrev LocalStorage := List (String × String)

/-- localStorage.getItem. -/
def getItem (store : LocalStorage) (k : String) : Option String :=
  (store.find? (fun e => e.1 == k)).map (fun e => e.2)

/-- localStorage.setItem. -/
def setItem (store : LocalStorage) (k v : String) : LocalStorage :=
  (k, v) :: store.filter (fun e => e.1 != k)

/-- The key used for the notification preference. -/
def notificationStorageKey : String := "isNotificationEnabled"

/-- setNotificationEnabled(value): set the React flag and write
value.toString() to localStorage under the key. Returns the new flag and
the new storage. -/
def setNotificationEnabled (value : Bool) (store : LocalStorage) :
    Bool × LocalStorage :=
  (value, setItem store notificationStorageKey (toString value))

/-- The startup read: localStorage.getItem("isNotificationEnabled") ===
"true" || false. -/
def readNotificationSetting (store : LocalStorage) : Bool :=
  (match getItem store notificationStorageKey with
   | some s => s == "true"
   | none => false) || false

/-! Concrete fixtures used by witnesses. -/

def sampleUser : ChatUser :=
  { id := "user-1", email := some "alice@example.com",
    user_metadata := { user_name := some "alice", avatar_url := some "https://a/av.png" } }

def sampleSession : Session := { user := sampleUser }

def sampleState : AppState :=
  { session := some sampleSession, messages := [], newMessage := "hello",
    isNotificationEnabled := false, isLoading := false, hasMore := true }

def loggedOutState : AppState :=
  { session := none, messages := [], newMessage := "hello",
    isNotificationEnabled := false, isLoading := false, hasMore := true }

/-- Claim C1: with a session and a draft that is non-empty after trimming,
handleSendMessage issues exactly one insert request whose user_id is the
session user's id; with an empty or whitespace-only draft, or no session,
it issues no insert request at all. -/
theorem claim_C1 (st : AppState) (ok : Bool) (s : Session)
    (hsess : st.session = some s) (hdraft : jsTrim st.newMessage ≠ "") :
    (handleSendMessage st ok).inserts = [mkInsertRequest st.newMessage s] ∧
    (mkInsertRequest st.newMessage s).user_id = s.user.id ∧
    ∀ st2 : AppState, (jsTrim st2.newMessage = "" ∨ st2.session = none) →
      (handleSendMessage st2 ok).inserts = [] := by
  refine ⟨?_, rfl, ?_⟩
  · simp only [handleSendMessage, hsess]
    rw [if_neg hdraft]
    cases ok <;> rfl
  · intro st2 h
    rcases h with he | hn
    · simp only [handleSendMessage]
      cases hs2 : st2.session with
      | none => rfl
      | some s2 =>
        dsimp only
        rw [if_pos he]
        rfl
    · simp only [handleSendMessage, hn]
      rfl

/-- Witness for C1 at a concrete state with a session and draft "hello". -/
theorem claim_C1_witness :
    (handleSendMessage sampleState true).inserts =
      [mkInsertRequest "hello" sampleSession] ∧
    (mkInsertRequest "hello" sampleSession).user_id = "user-1" := by
  have h := claim_C1 sampleState true sampleSession rfl (by decide)
  exact ⟨h.1, h.2.1⟩

/-- Claim C9: a failed insert leaves the draft and the displayed messages
unchanged; the draft is cleared to the empty string only on success (and a
successful insert also leaves the displayed list unchanged, since display
updates arrive through the realtime channel). -/
theorem claim_C9 (st : AppState) (s : Session) (hsess : st.session = some s)
    (hdraft : jsTrim st.newMessage ≠ "") :
    (handleSendMessage st false).state.newMessage = st.newMessage ∧
    (handleSendMessage st false).state.messages = st.messages ∧
    (handleSendMessage st true).state.messages = st.messages ∧
    (handleSendMessage st true).state.newMessage = "" := by
  unfold handleSendMessage
  rw [hsess]
  dsimp only
  simp only [if_neg hdraft]
  exact ⟨rfl, rfl, rfl, rfl⟩

/-- Witness for C9 at a concrete state with a session and draft "hello". -/
theorem claim_C9_witness :
    (handleSendMessage sampleState false).state.newMessage = "hello" ∧
    (handleSendMessage sampleState false).state.messages = [] ∧
    (handleSendMessage sampleState true).state.newMessage = "" := by
  have h := claim_C9 sampleState sampleSession rfl (by decide)
  exact ⟨h.1, h.2.1, h.2.2.2⟩

/-- Claim C7: after a completed logout (successful signOut followed by the
auth listener delivering a null session), the session state is none; and
whenever the session is none, the input and the submit control are disabled
and handleSendMessage issues no insert request and no backend call. -/
theorem claim_C7 (st : AppState) (ok : Bool) :
    (runApp st [AppEvent.logout true, AppEvent.authChange none]).session = none ∧
    inputDisabled (runApp st [AppEvent.logout true, AppEvent.authChange none]) = true ∧
    submitDisabled (runApp st [AppEvent.logout true, AppEvent.authChange none]) = true ∧
    ∀ st2 : AppState, st2.session = none →
      (handleSendMessage st2 ok).inserts = [] ∧
      (handleSendMessage st2 ok).calls = 0 := by
  refine ⟨rfl, rfl, rfl, ?_⟩
  intro st2 h
  simp only [handleSendMessage, h]
  exact ⟨rfl, rfl⟩

/-- Witness for C7 at a concrete state. -/
theorem claim_C7_witness :
    (runApp sampleState [AppEvent.logout true, AppEvent.authChange none]).session = none ∧
    inputDisabled (runApp sampleState [AppEvent.logout true, AppEvent.authChange none]) = true ∧
    (handleSendMessage loggedOutState true).inserts = [] := by
  have h := claim_C7 sampleState true
  exact ⟨h.1, h.2.1, (h.2.2.2 loggedOutState rfl).1⟩

/-- Claim C6: the notification-preference toggle writes the boolean to
localStorage under the key isNotificationEnabled, and the startup read
recovers exactly the value written: a write-then-read round trip. -/
theorem claim_C6 (store : LocalStorage) (v : Bool) :
    readNotificationSetting (setNotificationEnabled v store).2 = v := by
  cases v <;> rfl

/-- Claim C8: at each of the five backend call sites (login, logout,
initial fetch, paginated fetch, insert) an error outcome produces exactly
one generic toast, no console log lines, and exactly one backend request,
so the failing call is not retried; each handler returns a well-defined
state, so no failure is fatal. -/
theorem claim_C8 (st : AppState) (offset : Nat) (div : Option ScrollBox)
    (newScrollHeight : Int) (s : Session) (hsess : st.session = some s)
    (hdraft : jsTrim st.newMessage ≠ "") :
    ((handleLogin st false).toasts = ["Failed to login"] ∧
      (handleLogin st false).logs = [] ∧ (handleLogin st false).calls = 1) ∧
    ((handleLogout st false).toasts = ["Failed to logout"] ∧
      (handleLogout st false).logs = [] ∧ (handleLogout st false).calls = 1) ∧
    ((fetchMessagesInitial st none).toasts = ["Failed to fetch messages"] ∧
      (fetchMessagesInitial st none).logs = [] ∧
      (fetchMessagesInitial st none).calls = 1) ∧
    ((fetchMessagesPaged st offset none div newScrollHeight).toasts =
        ["Failed to fetch messages"] ∧
      (fetchMessagesPaged st offset none div newScrollHeight).logs = [] ∧
      (fetchMessagesPaged st offset none div newScrollHeight).calls = 1) ∧
    ((handleSendMessage st false).toasts = ["Failed to send message"] ∧
      (handleSendMessage st false).logs = [] ∧
      (handleSendMessage st false).calls = 1) := by
  refine ⟨⟨rfl, rfl, rfl⟩, ⟨rfl, rfl, rfl⟩, ⟨rfl, rfl, rfl⟩,
    ⟨rfl, rfl, rfl⟩, ?_⟩
  unfold handleSendMessage
  rw [hsess]
  dsimp only
  simp only [if_neg hdraft]
  exact ⟨rfl, rfl, rfl⟩

/-- Witness for C8 at a concrete state. -/
theorem claim_C8_witness :
    (handleLogin sampleState false).toasts = ["Failed to login"] ∧
    (handleLogout sampleState false).toasts = ["Failed to logout"] ∧
    (fetchMessagesInitial sampleState none).toasts = ["Failed to fetch messages"] ∧
    (fetchMessagesPaged sampleState 0 none none 0).toasts = ["Failed to fetch messages"] ∧
    (handleSendMessage sampleState false).toasts = ["Failed to send message"] ∧
    (handleSendMessage sampleState false).logs = [] ∧
    (handleSendMessage sampleState false).calls = 1 := by
  have h := claim_C8 sampleState 0 none 0 sampleSession rfl (by decide)
  exact ⟨h.1.1, h.2.1.1, h.2.2.1.1, h.2.2.2.1.1, h.2.2.2.2.1,
    h.2.2.2.2.2.1, h.2.2.2.2.2.2⟩

/-- Claim C5: for a load-more fetch with non-zero offset and a present
messages div, the captured distance-from-bottom (scrollHeight - scrollTop)
is restored after the DOM update: scrollTop is assigned the new
scrollHeight minus the captured distance, so the distance-from-bottom is
unchanged. -/
theorem claim_C5 (st : AppState) (offset : Nat) (data : List Message)
    (box : ScrollBox) (newScrollHeight : Int) (hoff : offset ≠ 0) :
    (fetchMessagesPaged st offset (some data) (some box) newScrollHeight).scrollAssign
      = some (newScrollHeight - (box.scrollHeight - box.scrollTop)) ∧
    ∀ a, (fetchMessagesPaged st offset (some data) (some box) newScrollHeight).scrollAssign
        = some a →
      newScrollHeight - a = box.scrollHeight - box.scrollTop := by
  unfold fetchMessagesPaged
  dsimp only
  rw [if_neg hoff]
  refine ⟨rfl, ?_⟩
  intro a ha
  have h2 : a = newScrollHeight - (box.scrollHeight - box.scrollTop) :=
    Option.some.inj ha.symm
  rw [h2]
  ring

/-- Witness for C5 at a concrete fetch. -/
theorem claim_C5_witness :
    (fetchMessagesPaged sampleState 50 (some []) (some { scrollHeight := 600, scrollTop := 150 }) 900).scrollAssign
      = some (900 - (600 - 150)) ∧
    (900 : Int) - (900 - (600 - 150)) = 600 - 150 := by
  have h := claim_C5 sampleState 50 [] { scrollHeight := 600, scrollTop := 150 } 900 (by decide)
  exact ⟨h.1, h.2 (900 - (600 - 150)) h.1⟩

/-- No event of the App state machine ever turns hasMore back on: a step
from a state with hasMore off leaves it off. -/
theorem hasMore_step_off (st : AppState) (e : AppEvent)
    (h : st.hasMore = false) : (stepApp st e).hasMore = false := by
  cases e with
  | send ok =>
    unfold stepApp handleSendMessage
    cases st.session with
    | none => exact h
    | some s =>
      dsimp only
      by_cases he : jsTrim st.newMessage = ""
      · rw [if_pos he]; exact h
      · rw [if_neg he]; cases ok <;> exact h
  | fetchInit resp =>
    unfold stepApp fetchMessagesInitial
    cases resp <;> exact h
  | fetchPage offset resp div newScrollHeight =>
    unfold stepApp fetchMessagesPaged
    cases resp with
    | none => exact h
    | some data =>
      dsimp only
      by_cases hlen : data.length < MESSAGES_PER_PAGE
      · rw [if_pos hlen]
        by_cases hoff : offset = 0
        · rw [if_pos hoff]
        · rw [if_neg hoff]
      · rw [if_neg hlen]
        by_cases hoff : offset = 0
        · rw [if_pos hoff]; exact h
        · rw [if_neg hoff]; exact h
  | realtime m => exact h
  | login ok => unfold stepApp handleLogin; cases ok <;> exact h
  | logout ok => unfold stepApp handleLogout; cases ok <;> exact h
  | authChange s => exact h
  | toggleSound => exact h
  | setDraft t => exact h

/-- hasMore stays off along any sequence of events. -/
theorem hasMore_run_off (st : AppState) (evts : List AppEvent)
    (h : st.hasMore = false) : (runApp st evts).hasMore = false := by
  induction evts generalizing st with
  | nil => exact h
  | cons e rest ih => exact ih (stepApp st e) (hasMore_step_off st e h)

/-- Claim C3: a paginated fetch that returns fewer rows than
MESSAGES_PER_PAGE turns hasMore off, hasMore stays off for every
subsequent state of the session, and therefore the Load past messages
control is never rendered again. -/
theorem claim_C3 (st : AppState) (offset : Nat) (data : List Message)
    (div : Option ScrollBox) (newScrollHeight : Int) (evts : List AppEvent)
    (hshort : data.length < MESSAGES_PER_PAGE) :
    (fetchMessagesPaged st offset (some data) div newScrollHeight).state.hasMore = false ∧
    loadMoreRendered
      (runApp (fetchMessagesPaged st offset (some data) div newScrollHeight).state evts)
      = false := by
  have hoff : (fetchMessagesPaged st offset (some data) div newScrollHeight).state.hasMore = false := by
    unfold fetchMessagesPaged
    dsimp only
    rw [if_pos hshort]
    by_cases hz : offset = 0
    · rw [if_pos hz]
    · rw [if_neg hz]
  exact ⟨hoff, hasMore_run_off _ evts hoff⟩

/-- Witness for C3: a 1-row page with offset 50, followed by more events. -/
theorem claim_C3_witness :
    (fetchMessagesPaged sampleState 50
        (some [{ id := "m1", user_id := "user-1", content := "hi",
                 created_at := 1, user_avatar := none, user_name := none }])
        none 0).state.hasMore = false ∧
    loadMoreRendered
      (runApp (fetchMessagesPaged sampleState 50
          (some [{ id := "m1", user_id := "user-1", content := "hi",
                   created_at := 1, user_avatar := none, user_name := none }])
          none 0).state
        [AppEvent.toggleSound, AppEvent.fetchInit (some []), AppEvent.logout true])
      = false := by
  exact claim_C3 sampleState 50 _ none 0 _ (by decide)

/-! Claim C2: ordering of the displayed list. -/

/-- Side conditions under which one event keeps the displayed list sorted:
a fetched page is descending (as the order cre desc query delivers), a
load-more page is entirely no newer than what is displayed, and a realtime
row is no older than what is displayed. -/
def admissible (st : AppState) : AppEvent → Prop
  | AppEvent.fetchInit resp =>
    match resp with
    | some data => sortedDesc data
    | none => True
  | AppEvent.fetchPage offset resp _ _ =>
    match resp with
    | some data =>
      sortedDesc data ∧
        (offset ≠ 0 → ∀ x ∈ data, ∀ y ∈ st.messages,
          x.created_at ≤ y.created_at)
    | none => True
  | AppEvent.realtime m => ∀ y ∈ st.messages, y.created_at ≤ m.created_at
  | _ => True

/-- A trace is admissible when each event is admissible in the state it is
applied to. -/
def admissibleFrom (st : AppState) : List AppEvent → Prop
  | [] => True
  | e :: rest => admissible st e ∧ admissibleFrom (stepApp st e) rest

instance instDecAdmissible (st : AppState) (e : AppEvent) :
    Decidable (admissible st e) :=
  match e with
  | AppEvent.fetchInit resp =>
    match resp with
    | some data => inferInstanceAs (Decidable (sortedDesc data))
    | none => isTrue trivial
  | AppEvent.fetchPage offset resp _ _ =>
    match resp with
    | some data =>
      inferInstanceAs
        (Decidable (sortedDesc data ∧
          (offset ≠ 0 → ∀ x ∈ data, ∀ y ∈ st.messages,
            x.created_at ≤ y.created_at)))
    | none => isTrue trivial
  | AppEvent.realtime m =>
    inferInstanceAs
      (Decidable (∀ y ∈ st.messages, y.created_at ≤ m.created_at))
  | AppEvent.send _ => isTrue trivial
  | AppEvent.login _ => isTrue trivial
  | AppEvent.logout _ => isTrue trivial
  | AppEvent.authChange _ => isTrue trivial
  | AppEvent.toggleSound => isTrue trivial
  | AppEvent.setDraft _ => isTrue trivial

instance instDecAdmissibleFrom (st : AppState) :
    (evts : List AppEvent) → Decidable (admissibleFrom st evts)
  | [] => isTrue trivial
  | e :: rest =>
    have : Decidable (admissibleFrom (stepApp st e) rest) :=
      instDecAdmissibleFrom (stepApp st e) rest
    instDecidableAnd

/-- A descending page, reversed, is ascending. -/
theorem sortedAsc_reverse_of_sortedDesc (l : List Message)
    (h : sortedDesc l) : sortedAsc l.reverse := by
  unfold sortedAsc
  rw [List.chain'_reverse]
  exact h

/-- handleSendMessage never changes the displayed list. -/
theorem sendMessage_messages (st : AppState) (ok : Bool) :
    (handleSendMessage st ok).state.messages = st.messages := by
  unfold handleSendMessage
  cases st.session with
  | none => rfl
  | some s =>
    dsimp only
    by_cases he : jsTrim st.newMessage = ""
    · rw [if_pos he]; rfl
    · rw [if_neg he]; cases ok <;> rfl

/-- One admissible step preserves the sortedness of the displayed list. -/
theorem sorted_step (st : AppState) (e : AppEvent)
    (hs : sortedAsc st.messages) (ha : admissible st e) :
    sortedAsc (stepApp st e).messages := by
  cases e with
  | send ok => rw [stepApp, sendMessage_messages]; exact hs
  | fetchInit resp =>
    unfold stepApp fetchMessagesInitial
    cases resp with
    | none => exact hs
    | some data =>
      exact sortedAsc_reverse_of_sortedDesc data ha
  | fetchPage offset resp div newScrollHeight =>
    unfold stepApp fetchMessagesPaged
    cases resp with
    | none => exact hs
    | some data =>
      dsimp only
      rcases ha with ⟨hdesc, hbound⟩
      by_cases hz : offset = 0
      · rw [if_pos hz]
        by_cases hlen : data.length < MESSAGES_PER_PAGE
        · rw [if_pos hlen]
          exact sortedAsc_reverse_of_sortedDesc data hdesc
        · rw [if_neg hlen]
          exact sortedAsc_reverse_of_sortedDesc data hdesc
      · rw [if_neg hz]
        have hb := hbound hz
        have happ : sortedAsc (data.reverse ++ st.messages) := by
          refine List.Chain'.append
            (sortedAsc_reverse_of_sortedDesc data hdesc) hs ?_
          intro x hx y hy
          exact hb x (List.mem_reverse.mp (List.mem_of_mem_getLast? hx))
            y (List.mem_of_mem_head? hy)
        by_cases hlen : data.length < MESSAGES_PER_PAGE
        · rw [if_pos hlen]; exact happ
        · rw [if_neg hlen]; exact happ
  | realtime m =>
    unfold stepApp onRealtimeInsert
    refine List.Chain'.append hs (List.chain'_singleton m) ?_
    intro x hx y hy
    have hym : y = m := by
      cases hy
      rfl
    rw [hym]
    exact ha x (List.mem_of_mem_getLast? hx)
  | login ok => unfold stepApp handleLogin; cases ok <;> exact hs
  | logout ok => unfold stepApp handleLogout; cases ok <;> exact hs
  | authChange s => exact hs
  | toggleSound => exact hs
  | setDraft t => exact hs

/-- Claim C2, amended: starting from a sorted display, every admissible
trace of the three list-mutating operations (initial fetch, realtime
append, load-more prepend), interleaved with the other events, keeps the
displayed list in non-decreasing created_at order. Admissibility is
necessary: without it a late-delivered realtime event breaks the order
(claim_C2_cex). -/
theorem claim_C2 (st : AppState) (evts : List AppEvent)
    (hs : sortedAsc st.messages) (ha : admissibleFrom st evts) :
    sortedAsc (runApp st evts).messages := by
  induction evts generalizing st with
  | nil => exact hs
  | cons e rest ih =>
    exact ih (stepApp st e) (sorted_step st e hs ha.1) ha.2

/-- A message created at time 90. -/
def msgAt90 : Message :=
  { id := "a", user_id := "u2", content := "one", created_at := 90,
    user_avatar := none, user_name := none }

/-- A message created at time 100. -/
def msgAt100 : Message :=
  { id := "b", user_id := "u2", content := "two", created_at := 100,
    user_avatar := none, user_name := none }

/-- A message created at time 95. -/
def msgAt95 : Message :=
  { id := "c", user_id := "u2", content := "three", created_at := 95,
    user_avatar := none, user_name := none }

/-- A message created at time 150. -/
def msgAt150 : Message :=
  { id := "d", user_id := "u2", content := "four", created_at := 150,
    user_avatar := none, user_name := none }

/-- A freshly mounted component: no session, empty list, hasMore on. -/
def mountedState : AppState :=
  { session := none, messages := [], newMessage := "",
    isNotificationEnabled := false, isLoading := false, hasMore := true }

/-- Counterexample to C2 as stated: the initial fetch completes with the
newest page (rows created at 100 and 90, descending), then a realtime
INSERT event for a row created at 95 is delivered late; the handler
appends it unconditionally, and the displayed list 90, 100, 95 is not in
non-decreasing created_at order. -/
theorem claim_C2_cex :
    ¬ sortedAsc
      (runApp mountedState
        [AppEvent.fetchInit (some [msgAt100, msgAt90]),
         AppEvent.realtime msgAt95]).messages := by
  intro h
  have h2 :
      (runApp mountedState
        [AppEvent.fetchInit (some [msgAt100, msgAt90]),
         AppEvent.realtime msgAt95]).messages
      = [msgAt90, msgAt100, msgAt95] := rfl
  rw [h2] at h
  unfold sortedAsc at h
  rw [List.chain'_cons, List.chain'_cons] at h
  exact absurd h.2.1 (by decide)

/-- Witness for the amended C2 on a concrete admissible trace. -/
theorem claim_C2_witness :
    sortedAsc
      (runApp mountedState
        [AppEvent.fetchInit (some [msgAt100, msgAt90]),
         AppEvent.realtime msgAt150,
         AppEvent.fetchPage 3 (some [msgAt90]) none 0]).messages := by
  refine claim_C2 mountedState _ trivial ⟨?_, ?_, ⟨?_, ?_⟩, trivial⟩
  · exact List.chain'_pair.mpr (by decide)
  · intro y hy
    fin_cases hy <;> decide
  · exact List.chain'_singleton msgAt90
  · intro hz x hx y hy
    fin_cases hx
    fin_cases hy <;> decide

/-! Claim C4: typing-indicator expiry. -/

/-- Every entry recorded for uid carries a timestamp at most T (uid has
not broadcast after T). -/
def uidStampedBy (uid : String) (T : Nat) (m : TypingMap) : Prop :=
  ∀ e ∈ m, e.1 = uid → e.2.timestamp ≤ T

/-- No entry for uid is present. -/
def uidAbsent (uid : String) (m : TypingMap) : Prop :=
  ∀ e ∈ m, e.1 ≠ uid

/-- An absent key looks up to none. -/
theorem lookupTyping_eq_none (uid : String) (m : TypingMap)
    (h : uidAbsent uid m) : lookupTyping uid m = none := by
  unfold lookupTyping
  rw [List.find?_eq_none.mpr]
  · rfl
  · intro x hx hb
    exact h x hx (eq_of_beq hb)

/-- One event whose broadcasts from uid are at or before T preserves
uidStampedBy. -/
theorem uidStampedBy_step (uid : String) (T : Nat) (m : TypingMap)
    (p : Nat × TypingEvent) (hm : uidStampedBy uid T m)
    (hp : ∀ name, p.2 = TypingEvent.broadcast uid name → p.1 ≤ T) :
    uidStampedBy uid T (stepTyping m p) := by
  obtain ⟨t, ev⟩ := p
  cases ev with
  | broadcast u name =>
    intro e he heq
    unfold stepTyping recordTyping at he
    rcases List.mem_cons.mp he with h | h
    · subst h
      have hu : u = uid := heq
      exact hp name (by rw [hu])
    · exact hm e (List.mem_of_mem_filter h) heq
  | sweep =>
    intro e he heq
    exact hm e (List.mem_of_mem_filter he) heq

/-- uidStampedBy is preserved along any event list whose broadcasts from
uid are at or before T. -/
theorem uidStampedBy_run (uid : String) (T : Nat)
    (l : List (Nat × TypingEvent)) (m : TypingMap)
    (hm : uidStampedBy uid T m)
    (hl : ∀ p ∈ l, ∀ name, p.2 = TypingEvent.broadcast uid name → p.1 ≤ T) :
    uidStampedBy uid T (runTyping m l) := by
  induction l generalizing m with
  | nil => exact hm
  | cons p rest ih =>
    exact ih (stepTyping m p)
      (uidStampedBy_step uid T m p hm (hl p (List.mem_cons_self p rest)))
      (fun q hq => hl q (List.mem_cons_of_mem p hq))

/-- A sweep strictly later than T + TYPING_TIMEOUT evicts every entry for
uid whose record is stamped at or before T. -/
theorem uidAbsent_sweep (uid : String) (T s : Nat) (m : TypingMap)
    (hm : uidStampedBy uid T m) (hs : T + TYPING_TIMEOUT < s) :
    uidAbsent uid (sweepTyping s m) := by
  intro e he heq
  unfold sweepTyping at he
  have h2 := List.mem_filter.mp he
  have hts := hm e h2.1 heq
  have hcond := h2.2
  simp only [Bool.not_eq_true', decide_eq_false_iff_not, not_lt] at hcond
  omega

/-- Absence of uid is preserved along events with no broadcast from uid. -/
theorem uidAbsent_run (uid : String) (l : List (Nat × TypingEvent))
    (m : TypingMap) (hm : uidAbsent uid m)
    (hl : ∀ p ∈ l, ∀ name, p.2 ≠ TypingEvent.broadcast uid name) :
    uidAbsent uid (runTyping m l) := by
  induction l generalizing m with
  | nil => exact hm
  | cons p rest ih =>
    refine ih (stepTyping m p) ?_ (fun q hq => hl q (List.mem_cons_of_mem p hq))
    obtain ⟨t, ev⟩ := p
    cases ev with
    | broadcast u name =>
      intro e he heq
      rcases List.mem_cons.mp he with h | h
      · subst h
        have hu : u = uid := heq
        exact hl (t, TypingEvent.broadcast u name)
          (List.mem_cons_self _ _) name (by rw [hu])
      · exact hm e (List.mem_of_mem_filter h) heq
    | sweep =>
      intro e he heq
      exact hm e (List.mem_of_mem_filter he) heq

/-- Claim C4: consider the typingUsers state machine over a chronological
event trace. If every broadcast from uid happens at or before T (the entry
is never refreshed after T), sweeps run at s0, s0 + 1000, s0 + 2000, ...
with the schedule started no later than T + TYPING_TIMEOUT, and the render
time R is at least T + TYPING_TIMEOUT + SWEEP_INTERVAL, then at the render
the entry for uid is absent from typingUsers (and hence nothing is shown
for it). -/
theorem claim_C4 (m0 : TypingMap) (evts : List (Nat × TypingEvent))
    (uid : String) (T s0 R : Nat)
    (hm0 : uidStampedBy uid T m0)
    (hmono : evts.Pairwise (fun a b => a.1 ≤ b.1))
    (hbroadcast : ∀ p ∈ evts, ∀ name,
      p.2 = TypingEvent.broadcast uid name → p.1 ≤ T)
    (hsweeps : ∀ k : Nat, s0 + SWEEP_INTERVAL * k ≤ R →
      (s0 + SWEEP_INTERVAL * k, TypingEvent.sweep) ∈ evts)
    (hs0 : s0 ≤ T + TYPING_TIMEOUT)
    (hR : T + TYPING_TIMEOUT + SWEEP_INTERVAL ≤ R) :
    lookupTyping uid (runTyping m0 evts) = none := by
  simp only [SWEEP_INTERVAL, TYPING_TIMEOUT] at hsweeps hs0 hR
  have hmod : (T + 3000 - s0) % 1000 < 1000 :=
    Nat.mod_lt _ (by norm_num)
  have hdiv := Nat.div_add_mod (T + 3000 - s0) 1000
  set k := (T + 3000 - s0) / 1000 + 1 with hk
  have hle : s0 + 1000 * k ≤ R := by omega
  have hgt : T + 3000 < s0 + 1000 * k := by omega
  have hmem := hsweeps k hle
  obtain ⟨l1, l2, heq⟩ := List.append_of_mem hmem
  subst heq
  unfold runTyping
  rw [List.foldl_append, List.foldl_cons]
  have hstamped : uidStampedBy uid T (runTyping m0 l1) :=
    uidStampedBy_run uid T l1 m0 hm0
      (fun p hp => hbroadcast p (List.mem_append_left _ hp))
  have habsent :
      uidAbsent uid
        (stepTyping (runTyping m0 l1) (s0 + 1000 * k, TypingEvent.sweep)) := by
    unfold stepTyping
    exact uidAbsent_sweep uid T (s0 + 1000 * k) (runTyping m0 l1) hstamped
      (by simp only [TYPING_TIMEOUT]; omega)
  have hl2 : ∀ p ∈ l2, ∀ name, p.2 ≠ TypingEvent.broadcast uid name := by
    intro p hp name hcontra
    have hT := hbroadcast p
      (List.mem_append_right _ (List.mem_cons_of_mem _ hp)) name hcontra
    have hge : s0 + 1000 * k ≤ p.1 := by
      have h3 := (List.pairwise_append.mp hmono).2.1
      exact (List.pairwise_cons.mp h3).1 p hp
    omega
  have hfin := uidAbsent_run uid l2 _ habsent hl2
  exact lookupTyping_eq_none uid _ hfin

/-- The concrete typing trace used by the C4 witness: a broadcast from u1
at time 0, then sweeps at 3000 and 4000. -/
def sampleTypingTrace : List (Nat × TypingEvent) :=
  [(0, TypingEvent.broadcast "u1" "alice"),
   (3000, TypingEvent.sweep),
   (4000, TypingEvent.sweep)]

/-- Witness for C4: the u1 entry recorded at time 0 is gone at render time
4000 = 0 + TYPING_TIMEOUT + SWEEP_INTERVAL. -/
theorem claim_C4_witness :
    lookupTyping "u1" (runTyping [] sampleTypingTrace) = none := by
  refine claim_C4 [] sampleTypingTrace "u1" 0 3000 4000 ?_ ?_ ?_ ?_ ?_ ?_
  · intro e he
    cases he
  · refine List.Pairwise.cons ?_ (List.Pairwise.cons ?_ (List.pairwise_singleton _ _))
    · intro b hb
      fin_cases hb <;> decide
    · intro b hb
      fin_cases hb
      decide
  · intro p hp name h
    fin_cases hp <;> simp_all
  · intro k hk
    simp only [SWEEP_INTERVAL] at hk
    have hk1 : k ≤ 1 := by omega
    interval_cases k <;> decide
  · decide
  · decide
